import Mathlib

/-!
Shallow embedding of the yellbuy/ezviz Go client (goezviz.go, util.go).

The repository's own logic — the two cache implementations, the token
refresh control flow, the query-parameter injection of `httpRPC`, and the
dispatch branching of `httpRequest` — is translated concretely.  External
collaborators (the `encoding/json` codec, the file system, the HTTP
transport, `time.Now`) are passed in as explicit parameters, so every
definition stays executable and the control flow of the Go source is
preserved verbatim.

Go `error` values produced by this code base are plain values carrying a
message; each construction site in the source becomes one constructor of
`GoError`, and `GoError.message` renders the exact string the Go code
builds.
-/

/-- Go `error` values created by this code base, one constructor per
construction site in the source.  `none : Option GoError` is Go's `nil`. -/
inductive GoError where
  /-- `ioutil.ReadFile` failure in `FileCache.Get`. -/
  | fileRead (msg : String)
  /-- `json.Unmarshal` failure in a cache `Get`. -/
  | jsonDecode (msg : String)
  /-- `errors.New("Data is already expired")` in a cache `Get`. -/
  | expired
  /-- `json.Marshal` failure in a cache `Set`. -/
  | jsonEncode (msg : String)
  /-- `client.Do` failure in `httpRequest`. -/
  | transport (msg : String)
  /-- `errors.New("Server error: " + resp.Status)` in `httpRequest`. -/
  | server (status : String)
  /-- `fmt.Errorf("%s: %s", code, msg)` in `OAPIResponse.checkError`. -/
  | api (code : String) (msg : String)
deriving DecidableEq, Repr

/-- The `Error()` string of each `GoError`, exactly as the Go source
formats it. -/
def GoError.message : GoError → String
  | .fileRead m => m
  | .jsonDecode m => m
  | .expired => "Data is already expired"
  | .jsonEncode m => m
  | .transport m => m
  | .server status => "Server error: " ++ status
  | .api code msg => code ++ ": " ++ msg

/-- Go `int64` division truncates toward zero; `expireTime/1000` in the
source is this operation. -/
def goDiv (a b : Int) : Int := Int.tdiv a b

/-- An `encoding/json` codec specialised to a record type, supplied as a
parameter: `marshal` is `json.Marshal` (bytes or error), `unmarshal` is
`json.Unmarshal` into an existing record (the possibly partially updated
record, plus an optional error that Go callers are free to ignore). -/
structure JSONCodec (α : Type) where
  marshal : α → Except String String
  unmarshal : String → α → α × Option String

/-- The `Expirable` interface of util.go: a record exposing its expiration
instant in milliseconds since the epoch (`GetExpireTime() int64`). -/
structure ExpirableOps (α : Type) where
  GetExpireTime : α → Int

namespace FileCache

/-- `FileCache.Set` (util.go): marshal the record; on success overwrite the
file (the `ioutil.WriteFile` error is discarded by the source); return the
marshal error only.  The file's content is modelled as `Option String`
(`none` = absent / unreadable). -/
def Set {α : Type} (codec : JSONCodec α) (fs : Option String) (data : α) :
    Option String × Option GoError :=
  match codec.marshal data with
  | .ok bytes => (some bytes, none)
  | .error m => (fs, some (.jsonEncode m))

/-- `FileCache.Get` (util.go): read the file, unmarshal into `data`, then
fail with the expiry error when `time.Now().Unix() > expireTime/1000`
(strict comparison, millisecond field truncated to seconds).  `now` is
`time.Now().Unix()`. -/
def Get {α : Type} (codec : JSONCodec α) (exp : ExpirableOps α) (now : Int)
    (fs : Option String) (data : α) : α × Option GoError :=
  match fs with
  | none => (data, some (.fileRead "read error"))
  | some bytes =>
    match codec.unmarshal bytes data with
    | (d, some m) => (d, some (.jsonDecode m))
    | (d, none) =>
      let expireTime := exp.GetExpireTime d
      if now > goDiv expireTime 1000 then (d, some .expired)
      else (d, none)

end FileCache

namespace InMemoryCache

/-- `InMemoryCache.Set` (util.go): marshal and store in the in-process
buffer; the buffer is `Option String` (`none` = the zero `nil` slice). -/
def Set {α : Type} (codec : JSONCodec α) (buf : Option String) (data : α) :
    Option String × Option GoError :=
  match codec.marshal data with
  | .ok bytes => (some bytes, none)
  | .error m => (buf, some (.jsonEncode m))

/-- `InMemoryCache.Get` (util.go): unmarshal the buffer into `data`
(`json.Unmarshal` of the `nil` zero-value buffer fails), then the same
strict expiry comparison as the file cache. -/
def Get {α : Type} (codec : JSONCodec α) (exp : ExpirableOps α) (now : Int)
    (buf : Option String) (data : α) : α × Option GoError :=
  match buf with
  | none => (data, some (.jsonDecode "unexpected end of JSON input"))
  | some bytes =>
    match codec.unmarshal bytes data with
    | (d, some m) => (d, some (.jsonDecode m))
    | (d, none) =>
      let expireTime := exp.GetExpireTime d
      if now > goDiv expireTime 1000 then (d, some .expired)
      else (d, none)

end InMemoryCache

/-- `OAPIResponse` (goezviz.go): the structured JSON envelope
`{code, msg}`. -/
structure OAPIResponse where
  Code : String
  Msg : String
deriving DecidableEq, Repr

/-- `OAPIResponse.checkError` (goezviz.go): any code other than `"200"`
becomes `fmt.Errorf("%s: %s", code, msg)`. -/
def OAPIResponse.checkError (data : OAPIResponse) : Option GoError :=
  if data.Code ≠ "200" then some (.api data.Code data.Msg) else none

/-- A non-nil `io.Writer`.  The base `OAPIResponse.getWriter` returns the
nil interface, modelled as `none : Option GoWriter`. -/
inductive GoWriter where
  | mk
deriving DecidableEq, Repr

/-- `OAPIResponse.getWriter` (goezviz.go) returns `nil`. -/
def OAPIResponse.getWriter (_ : OAPIResponse) : Option GoWriter := none

/-- `AccessToken` (goezviz.go): `{accessToken, expireTime}`, the
expiration in milliseconds since the epoch. -/
structure AccessToken where
  accessToken : String
  expireTime : Int
deriving DecidableEq, Repr

/-- `AccessTokenResponse` (goezviz.go): Go struct embedding of
`OAPIResponse` plus the `data` payload. -/
structure AccessTokenResponse where
  base : OAPIResponse
  Data : AccessToken
deriving DecidableEq, Repr

/-- `AccessTokenResponse.GetExpireTime` (goezviz.go): returns
`e.Data.ExpireTime`. -/
def AccessTokenResponse.GetExpireTime (e : AccessTokenResponse) : Int :=
  e.Data.expireTime

/-- The `Expirable` dictionary of `AccessTokenResponse`. -/
def atrExpirable : ExpirableOps AccessTokenResponse :=
  ⟨AccessTokenResponse.GetExpireTime⟩

/-- The zero value of `var res AccessTokenResponse`. -/
def AccessTokenResponse.zero : AccessTokenResponse :=
  ⟨⟨"", ""⟩, ⟨"", 0⟩⟩

/-- The `Unmarshallable` interface of goezviz.go, as a dictionary:
`checkError` self-reports a domain error, `getWriter` exposes the raw-byte
sink (or `nil`). -/
structure UnmarshallableOps (α : Type) where
  checkError : α → Option GoError
  getWriter : α → Option GoWriter

/-- The `Unmarshallable` dictionary of the base `OAPIResponse` shape. -/
def OAPIResponseOps : UnmarshallableOps OAPIResponse :=
  ⟨OAPIResponse.checkError, OAPIResponse.getWriter⟩

/-- `typeJSON` (goezviz.go). -/
def typeJSON : String := "application/json"

/-- The content-type test of `httpRequest` (goezviz.go):
`len(contentType) >= pos && contentType[0:pos] == typeJSON` with
`pos = len(typeJSON)`. -/
def hasJSONContentType (contentType : String) : Bool :=
  let pos := typeJSON.length
  decide (pos ≤ contentType.length) && (contentType.take pos == typeJSON)

/-- An HTTP response as `httpRequest` observes it after a successful
`client.Do`: status code and status line, `Content-Type` header, the body
bytes, and whether `ioutil.ReadAll` succeeds on that body. -/
structure HttpResponse where
  StatusCode : Int
  Status : String
  ContentType : String
  Body : String
  ReadAllOk : Bool
deriving DecidableEq, Repr

/-- The observable outcome of `httpRequest`: the final state of the
response record, the returned error, and instrumentation recording whether
the body was read, whether `json.Unmarshal` ran, and whether `io.Copy` ran
(and with which writer). -/
structure ReqResult (α : Type) where
  state : α
  err : Option GoError
  readBody : Bool
  unmarshalCalled : Bool
  copyCalled : Bool
  copyWriter : Option GoWriter
deriving DecidableEq, Repr

/-- `io.Copy(dst, src)` with a nil `dst` panics on the first write, i.e.
exactly when the source is non-empty. -/
def ioCopyPanics (dst : Option GoWriter) (src : String) : Bool :=
  dst.isNone && src ≠ ""

/-- `httpRequest` (goezviz.go, lines 115-167), given the response of a
successful transport call.  A non-200 status short-circuits to the server
error before the body is touched.  A JSON content type reads the body and
unmarshals it, discarding the `json.Unmarshal` error, then returns
`checkError`; if `ioutil.ReadAll` fails, the function falls through to
`return err` where `err` is the outer, nil, transport error (the inner
`err` is shadowed).  Any other content type copies the raw body into
`getWriter()` and returns `checkError` on the untouched record. -/
def httpRequest {α : Type} (ops : UnmarshallableOps α)
    (unmarshal : String → α → α × Option String)
    (resp : HttpResponse) (responseData : α) : ReqResult α :=
  if resp.StatusCode ≠ 200 then
    ⟨responseData, some (.server resp.Status), false, false, false, none⟩
  else if hasJSONContentType resp.ContentType then
    if resp.ReadAllOk then
      let d := (unmarshal resp.Body responseData).1
      ⟨d, ops.checkError d, true, true, false, none⟩
    else
      ⟨responseData, none, true, false, false, none⟩
  else
    ⟨responseData, ops.checkError responseData, true, false, true,
      ops.getWriter responseData⟩

/-- `url.Values`: a Go map from key to list of values, modelled as an
association list with distinct keys. -/
abbrev Values := List (String × List String)

/-- `url.Values.Get`: the first value associated with the key, or `""`
when the key is absent or its value list is empty. -/
def Values.get (v : Values) (key : String) : String :=
  match List.lookup key v with
  | some (s :: _) => s
  | some [] => ""
  | none => ""

/-- `url.Values.Set`: replace the key's value list with the singleton
`[val]`, inserting the key if absent. -/
def Values.set (v : Values) (key val : String) : Values :=
  if (List.lookup key v).isSome then
    v.map fun p => if p.1 == key then (p.1, [val]) else p
  else
    v ++ [(key, [val])]

/-- The query-parameter preparation of `httpRPC` (goezviz.go, lines
103-113; identical in the query-parameter variant): when the client holds
a non-empty token, materialise a nil map, and set `accessToken` to the
client's token only when `params.Get("accessToken")` is empty; the
prepared map is what `httpRequest` receives.  `none` is Go's nil
`url.Values`. -/
def httpRPCParams (accessToken : String) (params : Option Values) :
    Option Values :=
  if accessToken ≠ "" then
    let params1 := match params with
      | none => ([] : Values)
      | some p => p
    if params1.get "accessToken" = "" then
      some (params1.set "accessToken" accessToken)
    else
      some params1
  else
    params

/-- `EzvizClient` (goezviz.go): the configuration and the active token.
The HTTP transport and the cache instance are passed to the operations as
explicit parameters. -/
structure EzvizClient where
  AppKey : String
  AppSecret : String
  AccessToken : String
deriving DecidableEq, Repr

/-- The `Cache` interface of util.go as a dictionary over a cache state
`σ`: `Get` fills a record (leaving the state untouched, as both
implementations do) and `Set` persists one. -/
structure CacheOps (σ : Type) where
  Get : σ → AccessTokenResponse → AccessTokenResponse × Option GoError
  Set : σ → AccessTokenResponse → σ × Option GoError

/-- Outcome of `RefreshAccessToken`: the client after the call, the cache
state after the call, how many times the authentication RPC (and hence the
network transport) was invoked, and the returned error. -/
structure RefreshOutcome (σ : Type) where
  client : EzvizClient
  cache : σ
  rpcCalls : Nat
  err : Option GoError
deriving Repr

/-- `RefreshAccessToken` (goezviz.go, lines 84-101).  `rpc` is the
`c.httpRPC("/lapp/token/get", nil, params, &res)` call — path, the
`{appkey, appsecret}` request map, the record it fills — supplied as a
transport double so invocations can be counted.  Cache hit: adopt the
cached token, zero RPC calls.  Cache miss: one RPC call; on RPC success
adopt the returned token, persist the record via `Set`, and return `Set`'s
error; on RPC failure return that error with the client untouched. -/
def EzvizClient.RefreshAccessToken {σ : Type} (cache : CacheOps σ)
    (rpc : String → List (String × String) → AccessTokenResponse →
      AccessTokenResponse × Option GoError)
    (c : EzvizClient) (st : σ) : RefreshOutcome σ :=
  let got := cache.Get st AccessTokenResponse.zero
  match got.2 with
  | none =>
    ⟨{ c with AccessToken := got.1.Data.accessToken }, st, 0, none⟩
  | some _ =>
    let params := [("appkey", c.AppKey), ("appsecret", c.AppSecret)]
    let called := rpc "/lapp/token/get" params got.1
    match called.2 with
    | none =>
      let setRes := cache.Set st called.1
      ⟨{ c with AccessToken := called.1.Data.accessToken },
        setRes.1, 1, setRes.2⟩
    | some e => ⟨c, st, 1, some e⟩

/-- A sample successful authentication response. -/
def atrSample : AccessTokenResponse :=
  ⟨⟨"200", ""⟩, ⟨"TOK", 1999999999000⟩⟩

/-- A sample client before any token is held. -/
def clientSample : EzvizClient := ⟨"K", "S", ""⟩

/-- A cache double whose `Get` always succeeds with the record `r`. -/
def stubCacheHit (r : AccessTokenResponse) : CacheOps Unit :=
  ⟨fun _ _ => (r, none), fun s _ => (s, none)⟩

/-- A cache double whose `Get` always fails and whose `Set` also fails. -/
def stubCacheMiss : CacheOps Unit :=
  ⟨fun _ r => (r, some (.fileRead "missing")),
   fun s _ => (s, some (.jsonEncode "boom"))⟩

/-- An RPC double returning a fixed record and error. -/
def rpcStub (r : AccessTokenResponse) (e : Option GoError) :
    String → List (String × String) → AccessTokenResponse →
      AccessTokenResponse × Option GoError :=
  fun _ _ _ => (r, e)

/-- Claim C1: when the cache `Get` succeeds (record present and not
expired), `RefreshAccessToken` adopts the cached record's token as the
client's active `AccessToken`, returns success, and invokes the
authentication RPC — and hence the network transport — zero times, with
the cache state untouched. -/
theorem refreshAccessToken_cache_hit {σ : Type} (cache : CacheOps σ)
    (rpc : String → List (String × String) → AccessTokenResponse →
      AccessTokenResponse × Option GoError)
    (c : EzvizClient) (st : σ) (r : AccessTokenResponse)
    (hget : cache.Get st AccessTokenResponse.zero = (r, none)) :
    EzvizClient.RefreshAccessToken cache rpc c st =
      ⟨{ c with AccessToken := r.Data.accessToken }, st, 0, none⟩ := by
  simp only [EzvizClient.RefreshAccessToken, hget]

/-- Witness for C1 at a concrete cache double: the cached token `"TOK"`
becomes the active token with zero RPC calls. -/
theorem refreshAccessToken_cache_hit_witness :
    EzvizClient.RefreshAccessToken (stubCacheHit atrSample)
        (rpcStub AccessTokenResponse.zero none) clientSample () =
      ⟨⟨"K", "S", "TOK"⟩, (), 0, none⟩ :=
  refreshAccessToken_cache_hit (stubCacheHit atrSample)
    (rpcStub AccessTokenResponse.zero none) clientSample () atrSample rfl

/-- Claim C3: when the cache `Get` fails, `RefreshAccessToken` invokes the
authentication RPC exactly once with the `{appkey, appsecret}` parameters;
on RPC success it adopts the returned token and persists the full response
record via the cache's `Set`, and `Set`'s error — `none` or not — is the
overall result even though the token was already adopted. -/
theorem refreshAccessToken_cache_miss_set {σ : Type} (cache : CacheOps σ)
    (rpc : String → List (String × String) → AccessTokenResponse →
      AccessTokenResponse × Option GoError)
    (c : EzvizClient) (st : σ) (e : GoError) (r2 : AccessTokenResponse)
    (hget : (cache.Get st AccessTokenResponse.zero).2 = some e)
    (hrpc : rpc "/lapp/token/get"
        [("appkey", c.AppKey), ("appsecret", c.AppSecret)]
        (cache.Get st AccessTokenResponse.zero).1 = (r2, none)) :
    EzvizClient.RefreshAccessToken cache rpc c st =
      ⟨{ c with AccessToken := r2.Data.accessToken },
        (cache.Set st r2).1, 1, (cache.Set st r2).2⟩ := by
  simp only [EzvizClient.RefreshAccessToken, hget, hrpc]

/-- Witness for C3 at concrete doubles: the RPC double is called once, the
returned token `"TOK"` is adopted, and the failing `Set`'s error
(`jsonEncode "boom"`) is the overall result. -/
theorem refreshAccessToken_cache_miss_set_witness :
    EzvizClient.RefreshAccessToken stubCacheMiss (rpcStub atrSample none)
        clientSample () =
      ⟨⟨"K", "S", "TOK"⟩, (), 1, some (GoError.jsonEncode "boom")⟩ :=
  refreshAccessToken_cache_miss_set stubCacheMiss (rpcStub atrSample none)
    clientSample () (GoError.fileRead "missing") atrSample rfl rfl

/-- Claim C8: when the cache `Get` fails and the authentication RPC also
fails, `RefreshAccessToken` leaves the whole client — in particular its
active `AccessToken` field — unchanged and returns the RPC's error
verbatim. -/
theorem refreshAccessToken_rpc_failure {σ : Type} (cache : CacheOps σ)
    (rpc : String → List (String × String) → AccessTokenResponse →
      AccessTokenResponse × Option GoError)
    (c : EzvizClient) (st : σ) (e ef : GoError) (r2 : AccessTokenResponse)
    (hget : (cache.Get st AccessTokenResponse.zero).2 = some e)
    (hrpc : rpc "/lapp/token/get"
        [("appkey", c.AppKey), ("appsecret", c.AppSecret)]
        (cache.Get st AccessTokenResponse.zero).1 = (r2, some ef)) :
    EzvizClient.RefreshAccessToken cache rpc c st = ⟨c, st, 1, some ef⟩ := by
  simp only [EzvizClient.RefreshAccessToken, hget, hrpc]

/-- Witness for C8 at concrete doubles: a transport failure leaves the
client exactly as it was and is returned verbatim. -/
theorem refreshAccessToken_rpc_failure_witness :
    EzvizClient.RefreshAccessToken stubCacheMiss
        (rpcStub AccessTokenResponse.zero (some (.transport "dial fail")))
        clientSample () =
      ⟨clientSample, (), 1, some (GoError.transport "dial fail")⟩ :=
  refreshAccessToken_rpc_failure stubCacheMiss
    (rpcStub AccessTokenResponse.zero (some (.transport "dial fail")))
    clientSample () (GoError.fileRead "missing")
    (GoError.transport "dial fail") AccessTokenResponse.zero rfl rfl

/-- For a nonnegative dividend Go's truncating division agrees with
Euclidean division. -/
theorem goDiv_eq_ediv_of_nonneg (a : Int) (h : 0 ≤ a) :
    goDiv a 1000 = a / 1000 :=
  Int.tdiv_eq_ediv h (by norm_num)

/-- A concrete `encoding/json` double for witnesses: every record encodes
to the bytes `"rec"`, which decode back to the fixed record `atrRecEx`. -/
def atrCodecEx : JSONCodec AccessTokenResponse where
  marshal := fun _ => .ok "rec"
  unmarshal := fun s z =>
    if s = "rec" then (⟨⟨"200", ""⟩, ⟨"TOK", 5000⟩⟩, none)
    else (z, some "invalid character")

/-- The record stored by `atrCodecEx`: token `"TOK"`, expiring at 5000 ms
(i.e. second 5). -/
def atrRecEx : AccessTokenResponse := ⟨⟨"200", ""⟩, ⟨"TOK", 5000⟩⟩

/-- Claim C2, amended: for a stored record that deserializes successfully,
both cache `Get`s fail with the expiry error exactly when
`now > expireTime/1000` — strictly after the (truncated) expiration
second, not at it — and succeed otherwise. -/
theorem cacheGet_expiry_strict {α : Type} (codec : JSONCodec α)
    (exp : ExpirableOps α) (now : Int) (bytes : String) (z d : α)
    (hdec : codec.unmarshal bytes z = (d, none)) :
    FileCache.Get codec exp now (some bytes) z =
      (d, if now > goDiv (exp.GetExpireTime d) 1000 then some GoError.expired
          else none) ∧
    InMemoryCache.Get codec exp now (some bytes) z =
      (d, if now > goDiv (exp.GetExpireTime d) 1000 then some GoError.expired
          else none) := by
  constructor <;>
    · simp only [FileCache.Get, InMemoryCache.Get, hdec]
      split <;> rfl

/-- Counterexample to claim C2 as stated: at `now = 5` and
`expireTime = 5000` the claimed failure condition `now ≥ expireTime/1000`
holds and deserialization succeeds, yet both `Get`s succeed, because the
source compares with strict `>`. -/
theorem cacheGet_expiry_boundary_cex :
    atrCodecEx.unmarshal "rec" AccessTokenResponse.zero = (atrRecEx, none) ∧
    (5 : Int) ≥ goDiv atrRecEx.GetExpireTime 1000 ∧
    FileCache.Get atrCodecEx atrExpirable 5 (some "rec")
      AccessTokenResponse.zero = (atrRecEx, none) ∧
    InMemoryCache.Get atrCodecEx atrExpirable 5 (some "rec")
      AccessTokenResponse.zero = (atrRecEx, none) := by
  refine ⟨by decide, by decide, by decide, by decide⟩

/-- Witness for the amended C2: one second past the boundary (`now = 6`)
both `Get`s fail with the expiry error. -/
theorem cacheGet_expiry_strict_witness :
    FileCache.Get atrCodecEx atrExpirable 6 (some "rec")
      AccessTokenResponse.zero = (atrRecEx, some GoError.expired) ∧
    InMemoryCache.Get atrCodecEx atrExpirable 6 (some "rec")
      AccessTokenResponse.zero = (atrRecEx, some GoError.expired) := by
  have h := cacheGet_expiry_strict atrCodecEx atrExpirable 6 "rec"
    AccessTokenResponse.zero atrRecEx (by decide)
  exact ⟨h.1.trans (by decide), h.2.trans (by decide)⟩

/-- Claim C4: a record whose marshalling round-trips and whose expiration
instant lies in the future survives `Set` followed by `Get` into a
zero-value record unchanged, in both the file-backed and the in-memory
cache. -/
theorem cache_roundtrip {α : Type} (codec : JSONCodec α)
    (exp : ExpirableOps α) (R : α) (b : String) (z : α) (now : Int)
    (fs buf : Option String)
    (hm : codec.marshal R = .ok b)
    (hu : codec.unmarshal b z = (R, none))
    (hnow : 0 ≤ now)
    (hfut : now * 1000 < exp.GetExpireTime R) :
    FileCache.Set codec fs R = (some b, none) ∧
    FileCache.Get codec exp now (some b) z = (R, none) ∧
    InMemoryCache.Set codec buf R = (some b, none) ∧
    InMemoryCache.Get codec exp now (some b) z = (R, none) := by
  have hE : (0 : Int) ≤ exp.GetExpireTime R :=
    le_trans (mul_nonneg hnow (by norm_num)) (le_of_lt hfut)
  have hle : now ≤ goDiv (exp.GetExpireTime R) 1000 := by
    rw [goDiv_eq_ediv_of_nonneg _ hE]
    omega
  refine ⟨?_, ?_, ?_, ?_⟩
  · simp only [FileCache.Set, hm]
  · simp only [FileCache.Get, hu]
    rw [if_neg (not_lt.mpr hle)]
  · simp only [InMemoryCache.Set, hm]
  · simp only [InMemoryCache.Get, hu]
    rw [if_neg (not_lt.mpr hle)]

/-- Witness for C4 at the concrete codec double: the record expiring at
second 5, written and read back at `now = 2`, comes back intact from both
caches. -/
theorem cache_roundtrip_witness :
    FileCache.Set atrCodecEx none atrRecEx = (some "rec", none) ∧
    FileCache.Get atrCodecEx atrExpirable 2 (some "rec")
      AccessTokenResponse.zero = (atrRecEx, none) ∧
    InMemoryCache.Set atrCodecEx none atrRecEx = (some "rec", none) ∧
    InMemoryCache.Get atrCodecEx atrExpirable 2 (some "rec")
      AccessTokenResponse.zero = (atrRecEx, none) :=
  cache_roundtrip atrCodecEx atrExpirable atrRecEx "rec"
    AccessTokenResponse.zero 2 none none rfl (by decide)
    (by decide) (by decide)

/-- The JSON body of the spec's domain-error example, as the raw bytes the
dispatcher would read. -/
def jsonBodyEx : String := "\x7b\"code\":\"400\",\"msg\":\"bad key\"\x7d"

/-- A concrete `json.Unmarshal` double decoding `jsonBodyEx` into the
`{code 400, msg bad key}` envelope and rejecting anything else. -/
def unmarshalEx : String → OAPIResponse → OAPIResponse × Option String :=
  fun s d =>
    if s = jsonBodyEx then (⟨"400", "bad key"⟩, none)
    else (d, some "invalid character")

/-- A `json.Unmarshal` double that always fails, leaving the record as it
was. -/
def unmarshalFailEx : String → OAPIResponse → OAPIResponse × Option String :=
  fun _ d => (d, some "unexpected end of JSON input")

/-- Claim C5: on a 200 response with a JSON content type whose body is
read, the decoded record's self-reported code determines the result — code
`"200"` yields no error, any other code yields the domain error carrying
that code and message. -/
theorem httpRequest_domain_code
    (unmarshal : String → OAPIResponse → OAPIResponse × Option String)
    (resp : HttpResponse) (d0 : OAPIResponse)
    (h200 : resp.StatusCode = 200)
    (hct : hasJSONContentType resp.ContentType = true)
    (hread : resp.ReadAllOk = true) :
    httpRequest OAPIResponseOps unmarshal resp d0 =
      ⟨(unmarshal resp.Body d0).1,
        (if (unmarshal resp.Body d0).1.Code = "200" then none
         else some (.api (unmarshal resp.Body d0).1.Code
                         (unmarshal resp.Body d0).1.Msg)),
        true, true, false, none⟩ := by
  simp only [httpRequest, h200, hct, hread, OAPIResponseOps,
    OAPIResponse.checkError, ne_eq]
  simp only [if_neg (by norm_num : ¬ ¬ (200 : Int) = 200), if_pos rfl,
    if_pos trivial]
  split_ifs with h1 h2 <;> simp_all

/-- Witness for C5: the body `{"code":"400","msg":"bad key"}` yields the
domain error `400: bad key`. -/
theorem httpRequest_domain_code_witness :
    (httpRequest OAPIResponseOps unmarshalEx
        ⟨200, "200 OK", "application/json", jsonBodyEx, true⟩
        ⟨"", ""⟩).err = some (GoError.api "400" "bad key") := by
  have h := httpRequest_domain_code unmarshalEx
    ⟨200, "200 OK", "application/json", jsonBodyEx, true⟩ ⟨"", ""⟩
    rfl (by decide) rfl
  rw [h]
  decide

/-- Claim C6: a non-200 status short-circuits to the server error carrying
the status description; the body is neither read nor decoded (the
instrumentation fields stay `false`), whatever the body holds. -/
theorem httpRequest_status_short_circuit {α : Type}
    (ops : UnmarshallableOps α)
    (unmarshal : String → α → α × Option String)
    (resp : HttpResponse) (d0 : α)
    (hst : resp.StatusCode ≠ 200) :
    httpRequest ops unmarshal resp d0 =
      ⟨d0, some (.server resp.Status), false, false, false, none⟩ := by
  simp only [httpRequest, if_pos hst]

/-- Witness for C6: a 404 whose body is well-formed JSON still yields the
server error without any read or decode. -/
theorem httpRequest_status_short_circuit_witness :
    httpRequest OAPIResponseOps unmarshalEx
        ⟨404, "404 Not Found", "application/json", jsonBodyEx, true⟩
        ⟨"", ""⟩ =
      ⟨⟨"", ""⟩, some (GoError.server "404 Not Found"),
        false, false, false, none⟩ :=
  httpRequest_status_short_circuit OAPIResponseOps unmarshalEx
    ⟨404, "404 Not Found", "application/json", jsonBodyEx, true⟩
    ⟨"", ""⟩ (by decide)

/-- Claim C9: on a 200 JSON response whose body fails to decode, the
decode error is discarded and the result is `checkError` of the record the
failed decode left behind (partially filled or still the zero value); no
decoding error reaches the caller. -/
theorem httpRequest_decode_error_ignored {α : Type}
    (ops : UnmarshallableOps α)
    (unmarshal : String → α → α × Option String)
    (resp : HttpResponse) (d0 d1 : α) (emsg : String)
    (h200 : resp.StatusCode = 200)
    (hct : hasJSONContentType resp.ContentType = true)
    (hread : resp.ReadAllOk = true)
    (hdec : unmarshal resp.Body d0 = (d1, some emsg)) :
    httpRequest ops unmarshal resp d0 =
      ⟨d1, ops.checkError d1, true, true, false, none⟩ := by
  simp only [httpRequest, h200, hct, hread, hdec]
  simp

/-- Witness for C9: a failing decode of a non-JSON body leaves the zero
envelope, and the result is its `checkError` — the api error with empty
code and message — not a decoding error. -/
theorem httpRequest_decode_error_ignored_witness :
    httpRequest OAPIResponseOps unmarshalFailEx
        ⟨200, "200 OK", "application/json", "not json", true⟩ ⟨"", ""⟩ =
      ⟨⟨"", ""⟩, some (GoError.api "" ""), true, true, false, none⟩ := by
  have h := httpRequest_decode_error_ignored OAPIResponseOps unmarshalFailEx
    ⟨200, "200 OK", "application/json", "not json", true⟩
    ⟨"", ""⟩ ⟨"", ""⟩ "unexpected end of JSON input" rfl (by decide) rfl rfl
  exact h.trans (by decide)

/-- Claim C10: on a 200 response with a non-JSON content type the
dispatcher copies the raw body into the shape's `getWriter`; the base
`OAPIResponse` shape's writer is nil, so that copy receives a nil writer,
and it is well-defined (does not panic) only when the body is empty. -/
theorem httpRequest_stream_nil_writer
    (unmarshal : String → OAPIResponse → OAPIResponse × Option String)
    (resp : HttpResponse) (d0 : OAPIResponse)
    (h200 : resp.StatusCode = 200)
    (hct : hasJSONContentType resp.ContentType = false) :
    OAPIResponse.getWriter d0 = none ∧
    httpRequest OAPIResponseOps unmarshal resp d0 =
      ⟨d0, OAPIResponse.checkError d0, true, false, true, none⟩ ∧
    ioCopyPanics
      (httpRequest OAPIResponseOps unmarshal resp d0).copyWriter
      resp.Body = (resp.Body != "") := by
  have h2 : httpRequest OAPIResponseOps unmarshal resp d0 =
      ⟨d0, OAPIResponse.checkError d0, true, false, true, none⟩ := by
    simp only [httpRequest, h200, hct, OAPIResponseOps,
      OAPIResponse.getWriter]
    simp
  refine ⟨rfl, h2, ?_⟩
  rw [h2]
  simp [ioCopyPanics, bne, beq_eq_decide]

/-- Witness for C10: a 200 `image/jpeg` response against the plain
structured shape runs the copy with the nil writer, and the nil-writer
copy of the non-empty body `"JPEG"` panics. -/
theorem httpRequest_stream_nil_writer_witness :
    httpRequest OAPIResponseOps unmarshalEx
        ⟨200, "200 OK", "image/jpeg", "JPEG", true⟩ ⟨"200", ""⟩ =
      ⟨⟨"200", ""⟩, none, true, false, true, none⟩ ∧
    ioCopyPanics none "JPEG" = true := by
  have h := httpRequest_stream_nil_writer unmarshalEx
    ⟨200, "200 OK", "image/jpeg", "JPEG", true⟩ ⟨"200", ""⟩ rfl (by decide)
  exact ⟨h.2.1.trans (by decide), by decide⟩

/-- Counterexample to claim C7 as stated: with an active token `"T"` and
caller parameters that already contain an `accessToken` entry — whose
first value happens to be the empty string — the source does not pass the
parameters through unchanged: `params.Get("accessToken")` returns `""`, so
the existing entry is overwritten with the client's token. -/
theorem httpRPCParams_existing_empty_entry_cex :
    (List.lookup "accessToken" [("accessToken", [("" : String)])]).isSome
      = true ∧
    httpRPCParams "T" (some [("accessToken", [""])]) ≠
      some [("accessToken", [""])] ∧
    httpRPCParams "T" (some [("accessToken", [""])]) =
      some [("accessToken", ["T"])] := by
  refine ⟨by decide, by decide, by decide⟩

/-- Claim C7, amended: `httpRPC` sets the `accessToken` query parameter to
the client's active token exactly when the client holds a non-empty token
and `Get("accessToken")` on the caller's parameters retrieves the empty
string (entry absent, value list empty, or first value empty — in the last
two cases the existing entry is overwritten, and a nil map is materialised
first); in every other case the caller's parameters pass through
unchanged. -/
theorem httpRPCParams_token_inject (token : String)
    (params : Option Values) :
    (token = "" → httpRPCParams token params = params) ∧
    (token ≠ "" → Values.get (params.getD []) "accessToken" = "" →
      httpRPCParams token params =
        some (Values.set (params.getD []) "accessToken" token)) ∧
    (token ≠ "" → Values.get (params.getD []) "accessToken" ≠ "" →
      httpRPCParams token params = params) := by
  refine ⟨fun h => by simp [httpRPCParams, h], fun h1 h2 => ?_, fun h1 h2 => ?_⟩
  · cases params <;> simp_all [httpRPCParams, Option.getD]
  · cases params with
    | none => exact absurd rfl h2
    | some p => simp_all [httpRPCParams, Option.getD]

/-- Witness for the amended C7: at the counterexample's input the second
case applies and the empty-valued entry is overwritten with `"T"`. -/
theorem httpRPCParams_token_inject_witness :
    httpRPCParams "T" (some [("accessToken", [""])]) =
      some (Values.set [("accessToken", [""])] "accessToken" "T") :=
  (httpRPCParams_token_inject "T" (some [("accessToken", [""])])).2.1
    (by decide) (by decide)
